import Mathlib

/-!
Verification of the abserve HTTP server (main.go): content cache,
refresh loop, request routing, argument handling and exit statuses.

Go byte strings are modelled as `List Nat`, timestamps as `Nat`
(seconds, the granularity of HTTP dates), and path strings as `String`.
-/

namespace Abserve

/-- The resource's content: the `content` struct of main.go, holding the
cached bytes (`bytes.Buffer`) and the last-modification time.  The
`sync.Mutex` field is modelled separately, by the step relation below. -/
structure ContentState where
  bytes : List Nat
  lastMod : Nat
  deriving Repr, DecidableEq

/-- `Buffer.Truncate(0)`: discards all bytes of the buffer. -/
def bufTruncate0 (_b : List Nat) : List Nat := []

/-- `Buffer.ReadFrom(r)`: appends to the buffer everything the reader
yields until end-of-stream; the stream is modelled as the list of chunks
successive reads return. -/
def bufReadFrom (b : List Nat) (chunks : List (List Nat)) : List Nat :=
  b ++ chunks.flatten

/-- `cache(r)` of main.go, happy path: under the lock, stamps the current
time into `lastMod`, truncates the buffer and reads `r` to end-of-stream
into it.  `now` is the value `time.Now()` returns at the head of the body. -/
def cache (s : ContentState) (now : Nat) (chunks : List (List Nat)) : ContentState :=
  { lastMod := now, bytes := bufReadFrom (bufTruncate0 s.bytes) chunks }

/-- C3 scratch check. -/
example : (cache ⟨[1,2,3], 5⟩ 9 [[4],[5,6]]).bytes = [4,5,6] := by decide

/-- `cache(r)` with the clock made explicit: `time.Now()` is sampled at
`t0`, at the head of the body and before `ReadFrom` runs; reading the
stream to end-of-stream takes `readDur` time units, so control returns at
`t0 + readDur`.  Returns the new content state together with the time at
which the fill completes. -/
def cacheTimed (s : ContentState) (t0 : Nat) (chunks : List (List Nat)) (readDur : Nat) :
    ContentState × Nat :=
  ({ lastMod := t0, bytes := bufReadFrom (bufTruncate0 s.bytes) chunks }, t0 + readDur)

/-! ## HTTP request routing (`serve`) -/

/-- An incoming HTTP request, restricted to the parts `serve` and the
conditional-GET logic consult: method, URL path and the
If-Modified-Since header (absent, or an HTTP-date, second granularity). -/
structure Request where
  method : String
  urlPath : String
  ifModifiedSince : Option Nat
  deriving Repr, DecidableEq

/-- The response classes `serve` can produce: the cached resource in full
(via `http.ServeContent`), a bodiless not-modified response (also via
`http.ServeContent`), `http.NotFound`, or delegation to
`http.ServeFile(w, r, filepath.Join(directory, r.URL.Path))`, recorded
here as the pair of arguments joined. -/
inductive Response
  | fullContent (respBody : List Nat) (respLastMod : Nat)
  | notModified
  | notFound
  | fileServe (dir : String) (reqPath : String)
  deriving Repr, DecidableEq

/-- Model of the external collaborator `http.ServeContent`, restricted to
what abserve relies on: body and Last-Modified come from the arguments,
and the If-Modified-Since conditional applies to GET and HEAD requests
carrying a parsed header when the modification time is nonzero, answering
not-modified (no body) exactly when the modification time is at or before
the header's time (times carry HTTP-date second granularity). -/
def serveContent (r : Request) (lastMod : Nat) (body : List Nat) : Response :=
  match r.ifModifiedSince with
  | some t =>
      if (r.method = "GET" ∨ r.method = "HEAD") ∧ lastMod ≠ 0 ∧ lastMod ≤ t then
        .notModified
      else
        .fullContent body lastMod
  | none => .fullContent body lastMod

/-- `serve` of main.go: on an exact match of the request's URL path with
the virtual path, serve the cached content (locking is modelled by the
step relation below); otherwise 404 when no directory is configured, else
delegate to the file server rooted at the directory. -/
def serve (vpath dir : String) (c : ContentState) (r : Request) : Response :=
  if r.urlPath = vpath then
    serveContent r c.lastMod c.bytes
  else if dir = "" then
    .notFound
  else
    .fileServe dir r.urlPath

/-- Whether a response serves the cached virtual resource (fully or as a
not-modified answer about it), as opposed to 404 or disk delegation. -/
def servedFromCache : Response → Bool
  | .fullContent _ _ => true
  | .notModified => true
  | .notFound => false
  | .fileServe _ _ => false

/-! ## Argument handling and exit statuses -/

/-- The ways the process terminates, from main.go: the SIGINT handler
calls `os.Exit(0)`; `flag.Usage` (bad flags or more than one positional
argument) prints the synopsis and calls `os.Exit(2)`; `-h` and
`--version` call `os.Exit(2)`; `catch`/`logger.Fatal`/`logger.Fatalf`
call `os.Exit(1)`. -/
inductive Termination
  | interrupt
  | usageError
  | helpRequest
  | versionRequest
  | fatalError
  deriving Repr, DecidableEq

/-- The exit status each termination path passes to `os.Exit`. -/
def exitStatus : Termination → Nat
  | .interrupt => 0
  | .usageError => 2
  | .helpRequest => 2
  | .versionRequest => 2
  | .fatalError => 1

/-- `strings.HasPrefix(s, p)`: whether `p` is a prefix of `s`, on the
character lists of the Go strings. -/
def hasPre (s p : String) : Bool := p.data.isPrefixOf s.data

/-- The flag-level view of the command line after `getopt.Parse`:
the boolean flags and the positional arguments (`flag.Args()`). -/
structure ParsedFlags where
  help : Bool
  printVersion : Bool
  positional : List String
  deriving Repr, DecidableEq

/-- Outcome of `parseArgs`: either the process exits (with the given
status) or it proceeds with the configured virtual path. -/
inductive ParseOutcome
  | exit (status : Nat)
  | proceed (vpath : String)
  deriving Repr, DecidableEq

/-- `parseArgs` of main.go after `getopt.Parse`: `-h` exits 2,
`--version` exits 2, more than one positional argument runs `flag.Usage`
(exit 2); otherwise the virtual path is `flag.Arg(0)` (the empty string
when absent), with `/` prepended when `strings.HasPrefix(path, "/")`
fails. -/
def parseArgs (f : ParsedFlags) : ParseOutcome :=
  if f.help then .exit (exitStatus .helpRequest)
  else if f.printVersion then .exit (exitStatus .versionRequest)
  else if f.positional.length > 1 then .exit (exitStatus .usageError)
  else
    let arg := f.positional.headD ""
    .proceed (if hasPre arg "/" then arg else "/" ++ arg)

/-! ## Startup in poll mode (`main`, fifo branch) -/

/-- `stat.Mode().Type()` outcomes relevant to the FIFO check. -/
inductive FileType
  | namedPipe
  | regular
  | dirType
  | other
  deriving Repr, DecidableEq

/-- The filesystem's answers to the poll-mode startup sequence: whether
`os.Open(fifo)` succeeds, whether `f.Stat()` succeeds, the stat type, and
the initial read (`none` models a read error during the first fill). -/
structure FifoEnv where
  openOk : Bool
  statOk : Bool
  ftype : FileType
  initialRead : Option (List (List Nat))
  deriving Repr, DecidableEq

/-- The externally visible actions of poll-mode startup, in program
order. -/
inductive MainAction
  | openFifo
  | statFifo
  | initialFill
  | startRecacheLoop
  | registerHandler
  | listen
  deriving Repr, DecidableEq

/-- Where poll-mode startup ends: a fatal exit (`catch`/`logger.Fatalf`,
status `exitStatus .fatalError`) or the serving state (handler
registered, listener running, requests servable). -/
inductive StartOutcome
  | fatal
  | serving
  deriving Repr, DecidableEq

/-- The `fifo != ""` branch of `main`: open the fifo (`catch` on error),
stat it (`catch` on error), `logger.Fatalf` when the type is not
`fs.ModeNamedPipe`, run the initial `cache(f)` (`catch` on read error),
start `recacheLoop` in the background, register the handler and listen.
Returns the trace of actions performed and the outcome. -/
def startupPoll (env : FifoEnv) : List MainAction × StartOutcome :=
  if env.openOk = false then ([.openFifo], .fatal)
  else if env.statOk = false then ([.openFifo, .statFifo], .fatal)
  else if env.ftype ≠ .namedPipe then ([.openFifo, .statFifo], .fatal)
  else match env.initialRead with
    | none => ([.openFifo, .statFifo, .initialFill], .fatal)
    | some _ =>
        ([.openFifo, .statFifo, .initialFill, .startRecacheLoop,
          .registerHandler, .listen], .serving)

/-! ## The poll loop (`recacheLoop`) -/

/-- Events a loop iteration can perform on the pipe. -/
inductive PipeEvent
  | openEv
  | fillEv
  | closeEv
  deriving Repr, DecidableEq

/-- The pipe events of one iteration of `recacheLoop`'s body:
`os.Open(fifo)` then `cache(f)`.  The body contains no `f.Close()`. -/
def recacheIter : List PipeEvent := [.openEv, .fillEv]

/-- The pipe events of the first `n` iterations of `recacheLoop`. -/
def recachePipeTrace (n : Nat) : List PipeEvent :=
  (List.range n).flatMap fun _ => recacheIter

/-- `recacheLoop`, happy path, unrolled: iteration `i` opens the pipe
(blocking until writer `i` connects; `time.Now()` inside `cache` then
reads `times i`) and reads payload `feeds i` to end-of-stream.
`recacheStates s times feeds n` is the cache state after `n` complete
iterations. -/
def recacheStates (s : ContentState) (times : Nat → Nat) (feeds : Nat → List (List Nat)) :
    Nat → ContentState
  | 0 => s
  | n + 1 => cache (recacheStates s times feeds n) (times n) (feeds n)

/-! ## Error paths of `cache` and `recacheLoop` -/

/-- What a read to end-of-stream yields: all chunks, or an I/O error
partway. -/
inductive IORead
  | chunks (cs : List (List Nat))
  | readErr
  deriving Repr, DecidableEq

/-- `cache(r)` including the error path: a `ReadFrom` error reaches
`catch`, which calls `logger.Fatal`, terminating the process with
`exitStatus .fatalError`.  `Except.error` is process termination with
that status. -/
def cacheE (s : ContentState) (now : Nat) (r : IORead) : Except Nat ContentState :=
  match r with
  | .chunks cs => .ok (cache s now cs)
  | .readErr => .error (exitStatus .fatalError)

/-- One scheduled iteration of `recacheLoop`: either `os.Open` fails, or
it succeeds and the read follows. -/
inductive PollStep
  | openErr
  | opened (r : IORead)
  deriving Repr, DecidableEq

/-- One iteration of `recacheLoop`'s body: `catch` on the open error,
else `cache(f)`. -/
def recacheStep (s : ContentState) (now : Nat) (it : PollStep) : Except Nat ContentState :=
  match it with
  | .openErr => .error (exitStatus .fatalError)
  | .opened r => cacheE s now r

/-- `recacheLoop` over a finite schedule of iterations, each with the
time its fill starts: iterations run in order and the first failing one
terminates the process; nothing after it runs. -/
def recacheLoopE (s : ContentState) : List (Nat × PollStep) → Except Nat ContentState
  | [] => .ok s
  | (t, it) :: rest =>
      match recacheStep s t it with
      | .error c => .error c
      | .ok s' => recacheLoopE s' rest

/-- An iteration that performs its open and read without error. -/
def stepOk : PollStep → Prop
  | .openErr => False
  | .opened .readErr => False
  | .opened (.chunks _) => True

instance : DecidablePred stepOk := by
  intro it
  match it with
  | .openErr => exact isFalse id
  | .opened .readErr => exact isFalse id
  | .opened (.chunks _) => exact isTrue trivial

/-! ## Interleaving semantics of `cache` against `serve` (the mutex)

`cache` holds `content`'s mutex across its whole body, and `serve` holds
it across its read of `lastMod` and `Bytes()` (through
`http.ServeContent`); readers do not mutate the state, so a reader's
whole critical section is one step.  The writer's critical section is
split at every memory write, the finest grain at which another goroutine
could otherwise interleave. -/

/-- The writer's program counter inside `cache`'s body. -/
inductive WriterPc
  | outside
  | locked
  | stamped
  | truncated
  | filled
  deriving Repr, DecidableEq

/-- A global state of the program: the mutex bit, the shared `content`,
the write in progress (time stamped, bytes read), the log of completed
fills (most recent first) and the log of pairs snapshots observed. -/
structure Sys where
  mutexHeld : Bool
  content : ContentState
  pendingT : Nat
  pendingB : List Nat
  completed : List (Nat × List Nat)
  snaps : List (List Nat × Nat)
  wpc : WriterPc
  deriving Repr, DecidableEq

/-- Initial state: `content` is the zero value of its struct (empty
buffer, zero time), no fill running, nothing completed or observed. -/
def initSys : Sys :=
  { mutexHeld := false, content := { bytes := [], lastMod := 0 },
    pendingT := 0, pendingB := [], completed := [], snaps := [],
    wpc := .outside }

/-- One interleaving step.  Writer steps follow `cache`'s body line by
line: `content.Lock()`, `content.lastMod = time.Now()` (an arbitrary
`t`), `content.Truncate(0)`, `content.ReadFrom(r)` (arbitrary chunks),
`content.Unlock()` — the unlock is the completion of the fill.  A
`snapshot` step is `serve`'s locked read of `(Bytes(), lastMod)`; it
requires the mutex to be free, and `completed ≠ []` because `main`
completes `cache(f)`/`cache(os.Stdin)` before `http.HandleFunc` registers
`serve`, so no request runs before the first fill has completed. -/
inductive SysStep : Sys → Sys → Prop
  | lockM (s : Sys) : s.mutexHeld = false → s.wpc = .outside →
      SysStep s { s with mutexHeld := true, wpc := .locked }
  | stamp (s : Sys) (t : Nat) : s.wpc = .locked →
      SysStep s { s with content := { s.content with lastMod := t },
                         pendingT := t, wpc := .stamped }
  | trunc (s : Sys) : s.wpc = .stamped →
      SysStep s { s with content := { s.content with bytes := bufTruncate0 s.content.bytes },
                         wpc := .truncated }
  | readChunks (s : Sys) (chunks : List (List Nat)) : s.wpc = .truncated →
      SysStep s { s with content := { s.content with bytes := bufReadFrom s.content.bytes chunks },
                         pendingB := bufReadFrom s.content.bytes chunks, wpc := .filled }
  | unlockM (s : Sys) : s.wpc = .filled →
      SysStep s { s with mutexHeld := false, wpc := .outside,
                         completed := (s.pendingT, s.pendingB) :: s.completed }
  | snapshot (s : Sys) : s.mutexHeld = false → s.completed ≠ [] →
      SysStep s { s with snaps := (s.content.bytes, s.content.lastMod) :: s.snaps }

/-- States reachable from `initSys` by interleaving steps. -/
inductive Reaches : Sys → Prop
  | init : Reaches initSys
  | tail {s s' : Sys} : Reaches s → SysStep s s' → Reaches s'

/-- A `(bytes, lastMod)` pair corresponds to one completed fill of the
log (the fill recorded time `t` and bytes `d`, and the pair is exactly
`(d, t)`). -/
def pairOfFill (completed : List (Nat × List Nat)) (p : List Nat × Nat) : Prop :=
  ∃ td ∈ completed, p.1 = td.2 ∧ p.2 = td.1

/-! ## Helper lemmas -/

lemma servedFromCache_serveContent (r : Request) (m : Nat) (b : List Nat) :
    servedFromCache (serveContent r m b) = true := by
  unfold serveContent
  split
  · split
    · rfl
    · rfl
  · rfl

lemma recacheLoopE_err (s : ContentState) (pre : List (Nat × PollStep)) (t : Nat)
    (it : PollStep) (post : List (Nat × PollStep))
    (hok : ∀ p ∈ pre, stepOk p.2) (hbad : ¬ stepOk it) :
    recacheLoopE s (pre ++ (t, it) :: post) = .error (exitStatus .fatalError) := by
  induction pre generalizing s with
  | nil =>
      cases it with
      | openErr => rfl
      | opened r =>
          cases r with
          | chunks cs => exact absurd trivial hbad
          | readErr => rfl
  | cons hd tl ih =>
      have hhd : stepOk hd.2 := hok hd (List.mem_cons_self hd tl)
      cases h2 : hd.2 with
      | openErr => rw [h2] at hhd; exact hhd.elim
      | opened r =>
          cases r with
          | readErr => rw [h2] at hhd; exact hhd.elim
          | chunks cs =>
              have : recacheLoopE s ((hd :: tl) ++ (t, it) :: post)
                  = recacheLoopE (cache s hd.1 cs) (tl ++ (t, it) :: post) := by
                obtain ⟨h1, hit⟩ := hd
                simp only at h2
                simp [h2, recacheLoopE, recacheStep, cacheE]
              rw [this]
              exact ih _ fun p hp => hok p (List.mem_cons_of_mem hd hp)

lemma recachePipeTrace_succ (n : Nat) :
    recachePipeTrace (n + 1) = recachePipeTrace n ++ recacheIter := by
  simp [recachePipeTrace, List.range_succ]

lemma recachePipeTrace_count_open (n : Nat) :
    (recachePipeTrace n).count PipeEvent.openEv = n := by
  induction n with
  | zero => rfl
  | succ n ih =>
      rw [recachePipeTrace_succ, List.count_append, ih]
      rfl

lemma recachePipeTrace_count_fill (n : Nat) :
    (recachePipeTrace n).count PipeEvent.fillEv = n := by
  induction n with
  | zero => rfl
  | succ n ih =>
      rw [recachePipeTrace_succ, List.count_append, ih]
      rfl

lemma pairOfFill_cons {completed : List (Nat × List Nat)} {td : Nat × List Nat}
    {p : List Nat × Nat} (h : pairOfFill completed p) :
    pairOfFill (td :: completed) p := by
  obtain ⟨x, hx, h1, h2⟩ := h
  exact ⟨x, List.mem_cons_of_mem _ hx, h1, h2⟩

/-- The inductive invariant of the interleaving system: the mutex is held
exactly while the writer is inside `cache`'s body; with the mutex free,
the shared pair is the initial zero value (with an empty fill log) or the
pair of some completed fill; mid-fill, the shared fields agree with the
write in progress; and every observed snapshot is the pair of a completed
fill. -/
def SysInv (s : Sys) : Prop :=
  (s.mutexHeld = false ↔ s.wpc = .outside)
  ∧ (s.wpc = .outside →
      (s.completed = [] ∧ s.content = initSys.content)
      ∨ pairOfFill s.completed (s.content.bytes, s.content.lastMod))
  ∧ (s.wpc = .stamped → s.content.lastMod = s.pendingT)
  ∧ (s.wpc = .truncated → s.content.lastMod = s.pendingT ∧ s.content.bytes = [])
  ∧ (s.wpc = .filled → s.content.lastMod = s.pendingT ∧ s.content.bytes = s.pendingB)
  ∧ ∀ p ∈ s.snaps, pairOfFill s.completed p

lemma sysInv_init : SysInv initSys := by
  refine ⟨by simp [initSys], fun _ => Or.inl ⟨rfl, rfl⟩, ?_, ?_, ?_, ?_⟩ <;>
    simp [initSys]

lemma sysInv_step {s s' : Sys} (inv : SysInv s) (st : SysStep s s') : SysInv s' := by
  obtain ⟨imtx, iout, istamp, itrunc, ifill, isnaps⟩ := inv
  cases st with
  | lockM hm hpc =>
      refine ⟨by simp, by simp, by simp, by simp, by simp, ?_⟩
      simpa using isnaps
  | stamp t hpc =>
      have hmtx : s.mutexHeld = true := by
        cases h : s.mutexHeld with
        | false => exact absurd (imtx.mp h) (by rw [hpc]; simp)
        | true => rfl
      refine ⟨by simp [hmtx], by simp, by simp, by simp, by simp, ?_⟩
      simpa using isnaps
  | trunc hpc =>
      have hmtx : s.mutexHeld = true := by
        cases h : s.mutexHeld with
        | false => exact absurd (imtx.mp h) (by rw [hpc]; simp)
        | true => rfl
      refine ⟨by simp [hmtx], by simp, by simp, ?_, by simp, ?_⟩
      · intro _
        exact ⟨istamp hpc, rfl⟩
      · simpa using isnaps
  | readChunks chunks hpc =>
      have hmtx : s.mutexHeld = true := by
        cases h : s.mutexHeld with
        | false => exact absurd (imtx.mp h) (by rw [hpc]; simp)
        | true => rfl
      refine ⟨by simp [hmtx], by simp, by simp, by simp, ?_, ?_⟩
      · intro _
        exact ⟨(itrunc hpc).1, rfl⟩
      · simpa using isnaps
  | unlockM hpc =>
      refine ⟨by simp, ?_, by simp, by simp, by simp, ?_⟩
      · intro _
        exact Or.inr ⟨(s.pendingT, s.pendingB), List.mem_cons_self _ _,
          (ifill hpc).2, (ifill hpc).1⟩
      · intro p hp
        exact pairOfFill_cons (isnaps p (by simpa using hp))
  | snapshot hm hne =>
      refine ⟨by simpa using imtx, by simpa using iout, by simpa using istamp,
        by simpa using itrunc, by simpa using ifill, ?_⟩
      intro p hp
      simp only at hp
      rcases List.mem_cons.mp hp with hp | hp
      · rcases iout (imtx.mp hm) with ⟨hc, _⟩ | hgood
        · exact absurd hc hne
        · rw [hp]; exact hgood
      · exact isnaps p hp

lemma sysInv_reaches {s : Sys} (h : Reaches s) : SysInv s := by
  induction h with
  | init => exact sysInv_init
  | tail _ st ih => exact sysInv_step ih st

/-! ## Claim theorems -/

/-- C1: for every interleaving of concurrent fill and snapshot operations
on the content cache, the `(bytes, lastMod)` pair observed by any
snapshot corresponds to a single completed fill — a reader never sees the
bytes of one fill with the timestamp of another, and never partially
written content. -/
theorem C1_snapshot_atomicity (s : Sys) (h : Reaches s) :
    ∀ p ∈ s.snaps, pairOfFill s.completed p :=
  (sysInv_reaches h).2.2.2.2.2

/-- Witness for C1, on the concrete run: lock, stamp time 5, truncate,
read `[7]`, unlock (completing the fill), snapshot. -/
theorem C1_snapshot_atomicity_witness :
    pairOfFill [(5, [7])] ([7], 5) := by
  have h0 : Reaches initSys := Reaches.init
  have h1 := Reaches.tail h0 (SysStep.lockM initSys rfl rfl)
  have h2 := Reaches.tail h1 (SysStep.stamp _ 5 rfl)
  have h3 := Reaches.tail h2 (SysStep.trunc _ rfl)
  have h4 := Reaches.tail h3 (SysStep.readChunks _ [[7]] rfl)
  have h5 := Reaches.tail h4 (SysStep.unlockM _ rfl)
  have h6 := Reaches.tail h5 (SysStep.snapshot _ rfl (by simp))
  exact C1_snapshot_atomicity _ h6 ([7], 5) (by simp [initSys, bufReadFrom, bufTruncate0])

/-- C2: the router serves the cached virtual resource exactly when the
request path string-equals the configured virtual path; otherwise it
404s when no directory is configured, and else delegates to the file
server on the directory and the request path.  A fallback file at the
virtual path is never served. -/
theorem C2_routing (vpath dir : String) (c : ContentState) (r : Request) :
    (servedFromCache (serve vpath dir c r) = true ↔ r.urlPath = vpath)
    ∧ (r.urlPath = vpath → serve vpath dir c r = serveContent r c.lastMod c.bytes)
    ∧ (r.urlPath = vpath → ∀ d p, serve vpath dir c r ≠ Response.fileServe d p)
    ∧ (r.urlPath ≠ vpath → dir = "" → serve vpath dir c r = Response.notFound)
    ∧ (r.urlPath ≠ vpath → dir ≠ "" →
        serve vpath dir c r = Response.fileServe dir r.urlPath) := by
  by_cases hp : r.urlPath = vpath
  · refine ⟨?_, fun _ => ?_, fun _ d p hEq => ?_, fun h => absurd hp h,
      fun h _ => absurd hp h⟩
    · simp [serve, hp, servedFromCache_serveContent]
    · simp [serve, hp]
    · have hv := servedFromCache_serveContent r c.lastMod c.bytes
      have hs : serve vpath dir c r = serveContent r c.lastMod c.bytes := by
        simp [serve, hp]
      rw [← hs, hEq] at hv
      simp [servedFromCache] at hv
  · by_cases hd : dir = ""
    · refine ⟨?_, fun h => absurd h hp, fun h => absurd h hp, fun _ _ => ?_,
        fun _ hd2 => absurd hd hd2⟩
      · simp [serve, hp, hd, servedFromCache]
      · simp [serve, hp, hd]
    · refine ⟨?_, fun h => absurd h hp, fun h => absurd h hp,
        fun _ hd2 => absurd hd2 hd, fun _ _ => ?_⟩
      · simp [serve, hp, hd, servedFromCache]
      · simp [serve, hp, hd]

/-- Witness for C2: virtual hit, 404 without a directory, delegation with
one — on concrete requests. -/
theorem C2_routing_witness :
    serve "/v" "/d" ⟨[1], 3⟩ ⟨"GET", "/v", none⟩
      = serveContent ⟨"GET", "/v", none⟩ 3 [1]
    ∧ serve "/v" "" ⟨[1], 3⟩ ⟨"GET", "/other", none⟩ = Response.notFound
    ∧ serve "/v" "/d" ⟨[1], 3⟩ ⟨"GET", "/other", none⟩
      = Response.fileServe "/d" "/other" :=
  ⟨(C2_routing "/v" "/d" ⟨[1], 3⟩ ⟨"GET", "/v", none⟩).2.1 rfl,
   (C2_routing "/v" "" ⟨[1], 3⟩ ⟨"GET", "/other", none⟩).2.2.2.1 (by decide) rfl,
   (C2_routing "/v" "/d" ⟨[1], 3⟩ ⟨"GET", "/other", none⟩).2.2.2.2 (by decide) (by decide)⟩

/-- C3: a fill reads the stream in its entirety, replaces the prior bytes
completely (the result does not depend on the prior state), and sets the
last-modification time to the current time. -/
theorem C3_fill_replaces (s : ContentState) (now : Nat) (chunks : List (List Nat)) :
    (cache s now chunks).bytes = chunks.flatten
    ∧ (cache s now chunks).lastMod = now
    ∧ ∀ s' : ContentState, cache s' now chunks = cache s now chunks :=
  ⟨rfl, rfl, fun _ => rfl⟩

/-- C4, counterexample: one iteration of `recacheLoop` performs
open-then-fill only — it never closes the pipe, so the claimed
open-read-close cycle does not match the code. -/
theorem C4_no_close_cex :
    recachePipeTrace 1 = [PipeEvent.openEv, PipeEvent.fillEv]
    ∧ PipeEvent.closeEv ∉ recachePipeTrace 1 := by
  decide

/-- C4 (amended): in poll mode, after the initial successful fill, each
iteration of the unbounded loop opens the pipe and reads it to
end-of-stream via the fill, each open-read cycle yielding one new version
of the resource, indefinitely; the opened file is not explicitly
closed between iterations. -/
theorem C4_poll_loop (s : ContentState) (times : Nat → Nat)
    (feeds : Nat → List (List Nat)) (n : Nat) :
    recacheStates s times feeds (n + 1)
      = { bytes := (feeds n).flatten, lastMod := times n }
    ∧ recachePipeTrace (n + 1) = recachePipeTrace n ++ recacheIter
    ∧ (recachePipeTrace n).count PipeEvent.openEv = n
    ∧ (recachePipeTrace n).count PipeEvent.fillEv = n
    ∧ PipeEvent.closeEv ∉ recachePipeTrace n := by
  refine ⟨rfl, recachePipeTrace_succ n, recachePipeTrace_count_open n,
    recachePipeTrace_count_fill n, ?_⟩
  simp [recachePipeTrace, recacheIter, List.mem_flatMap]

/-- C5: poll mode with a path whose stat type is not a named pipe
terminates fatally (nonzero status) right after the open/stat/type check:
the listener is never started and no fill is performed. -/
theorem C5_fifo_precondition (env : FifoEnv)
    (ho : env.openOk = true) (hs : env.statOk = true)
    (ht : env.ftype ≠ FileType.namedPipe) :
    startupPoll env = ([MainAction.openFifo, MainAction.statFifo], StartOutcome.fatal)
    ∧ MainAction.listen ∉ (startupPoll env).1
    ∧ MainAction.initialFill ∉ (startupPoll env).1
    ∧ exitStatus .fatalError ≠ 0 := by
  have h1 : startupPoll env = ([.openFifo, .statFifo], .fatal) := by
    simp [startupPoll, ho, hs, ht]
  exact ⟨h1, by rw [h1]; decide, by rw [h1]; decide, by decide⟩

/-- Witness for C5: a regular file at the poll path. -/
theorem C5_fifo_precondition_witness :
    startupPoll ⟨true, true, FileType.regular, some [[2]]⟩
      = ([MainAction.openFifo, MainAction.statFifo], StartOutcome.fatal) :=
  (C5_fifo_precondition ⟨true, true, FileType.regular, some [[2]]⟩ rfl rfl
    (by decide)).1

/-- C6: a GET for the virtual path whose If-Modified-Since is at or after
the cache's lastMod gets a bodiless not-modified response; one with an
earlier timestamp gets the full cached content. -/
theorem C6_conditional_get (vpath dir : String) (c : ContentState) (r : Request)
    (t : Nat) (hpath : r.urlPath = vpath) (hm : r.method = "GET")
    (hims : r.ifModifiedSince = some t) (hpos : 0 < c.lastMod) :
    (c.lastMod ≤ t → serve vpath dir c r = Response.notModified)
    ∧ (t < c.lastMod → serve vpath dir c r = Response.fullContent c.bytes c.lastMod) := by
  constructor
  · intro hle
    simp [serve, hpath, serveContent, hims, hm, hle, Nat.pos_iff_ne_zero.mp hpos]
  · intro hlt
    have hnle : ¬ (c.lastMod ≤ t) := Nat.not_le.mpr hlt
    simp [serve, hpath, serveContent, hims, hnle]

/-- Witness for C6: lastMod 5 against If-Modified-Since 7 (not modified)
and 3 (full body). -/
theorem C6_conditional_get_witness :
    serve "/x" "" ⟨[1], 5⟩ ⟨"GET", "/x", some 7⟩ = Response.notModified
    ∧ serve "/x" "" ⟨[1], 5⟩ ⟨"GET", "/x", some 3⟩
      = Response.fullContent [1] 5 :=
  ⟨(C6_conditional_get "/x" "" ⟨[1], 5⟩ ⟨"GET", "/x", some 7⟩ 7 rfl rfl rfl
      (by decide)).1 (by decide),
   (C6_conditional_get "/x" "" ⟨[1], 5⟩ ⟨"GET", "/x", some 3⟩ 3 rfl rfl rfl
      (by decide)).2 (by decide)⟩

/-- C7: an I/O error while opening the source or reading during a fill,
in one-shot or poll mode, terminates the process with a nonzero status;
the failed iteration is never retried and the rest of the schedule never
runs (the result does not depend on it). -/
theorem C7_io_error_fatal (s : ContentState) (now : Nat)
    (pre : List (Nat × PollStep)) (t : Nat) (it : PollStep)
    (hok : ∀ p ∈ pre, stepOk p.2) (hbad : ¬ stepOk it) :
    cacheE s now IORead.readErr = .error (exitStatus .fatalError)
    ∧ exitStatus .fatalError ≠ 0
    ∧ ∀ post post' : List (Nat × PollStep),
        recacheLoopE s (pre ++ (t, it) :: post) = .error (exitStatus .fatalError)
        ∧ recacheLoopE s (pre ++ (t, it) :: post)
            = recacheLoopE s (pre ++ (t, it) :: post') :=
  ⟨rfl, by decide, fun post post' =>
    ⟨recacheLoopE_err s pre t it post hok hbad, by
      rw [recacheLoopE_err s pre t it post hok hbad,
        recacheLoopE_err s pre t it post' hok hbad]⟩⟩

/-- Witness for C7: one successful iteration, then a failing open;
the loop dies with status 1. -/
theorem C7_io_error_fatal_witness :
    recacheLoopE ⟨[], 0⟩
      [(0, PollStep.opened (IORead.chunks [[1]])), (3, PollStep.openErr)]
      = Except.error 1 := by
  have h := (C7_io_error_fatal ⟨[], 0⟩ 0 [(0, PollStep.opened (IORead.chunks [[1]]))]
    3 PollStep.openErr (by decide) (by decide)).2.2 [] []
  simpa using h.1

/-- C8: exit status 0 belongs to the interrupt path only; status 2 to
usage errors (including more than one positional argument), help and
version requests exactly; runtime fatal errors exit with a different
nonzero status. -/
theorem C8_exit_statuses (f : ParsedFlags)
    (hh : f.help = false) (hv : f.printVersion = false)
    (hn : 1 < f.positional.length) :
    (∀ t : Termination, exitStatus t = 0 ↔ t = .interrupt)
    ∧ (∀ t : Termination, exitStatus t = 2 ↔
        (t = .usageError ∨ t = .helpRequest ∨ t = .versionRequest))
    ∧ exitStatus .fatalError ≠ 0 ∧ exitStatus .fatalError ≠ 2
    ∧ 0 < exitStatus .fatalError
    ∧ parseArgs f = .exit 2
    ∧ parseArgs ⟨true, false, []⟩ = .exit 2
    ∧ parseArgs ⟨false, true, []⟩ = .exit 2 := by
  refine ⟨fun t => ?_, fun t => ?_, by decide, by decide, by decide, ?_, by decide,
    by decide⟩
  · cases t <;> simp [exitStatus]
  · cases t <;> simp [exitStatus]
  · simp [parseArgs, exitStatus, hh, hv, hn]

/-- Witness for C8: two positional arguments are a usage error. -/
theorem C8_exit_statuses_witness :
    parseArgs ⟨false, false, ["a", "b"]⟩ = ParseOutcome.exit 2 :=
  (C8_exit_statuses ⟨false, false, ["a", "b"]⟩ rfl rfl (by decide)).2.2.2.2.2.1

/-- C9: the configured virtual path is the positional argument when it
already starts with `/`, `/` prepended to it otherwise, and `/` when the
argument is omitted. -/
theorem C9_path_normalization (f : ParsedFlags) (arg : String)
    (hh : f.help = false) (hv : f.printVersion = false) :
    (f.positional = [arg] → hasPre arg "/" = true → parseArgs f = .proceed arg)
    ∧ (f.positional = [arg] → hasPre arg "/" = false →
        parseArgs f = .proceed ("/" ++ arg))
    ∧ (f.positional = [] → parseArgs f = .proceed "/") := by
  refine ⟨fun hpos hsw => ?_, fun hpos hsw => ?_, fun hpos => ?_⟩
  · simp [parseArgs, hh, hv, hpos, hsw]
  · simp [parseArgs, hh, hv, hpos, hsw]
  · simp only [parseArgs, hh, hv, hpos]
    decide

/-- Witness for C9: `doc.html` is served at `/doc.html`. -/
theorem C9_path_normalization_witness :
    parseArgs ⟨false, false, ["doc.html"]⟩ = ParseOutcome.proceed "/doc.html" := by
  have h := (C9_path_normalization ⟨false, false, ["doc.html"]⟩ "doc.html"
    rfl rfl).2.1 rfl (by decide)
  simpa using h

/-- C10: the fill stamps `lastMod` with the time at the head of its body,
before the read: the stamp is the fill's start time (strictly before its
completion time whenever the read takes time), it is fresh even when the
content read is identical to the previous content, and the timed fill
agrees with `cache`. -/
theorem C10_lastmod_at_fill_start (s : ContentState) (t0 : Nat)
    (chunks : List (List Nat)) (d : Nat) :
    (cacheTimed s t0 chunks d).1.lastMod = t0
    ∧ (cacheTimed s t0 chunks d).2 = t0 + d
    ∧ (chunks.flatten = s.bytes → (cacheTimed s t0 chunks d).1.lastMod = t0)
    ∧ (0 < d → (cacheTimed s t0 chunks d).1.lastMod < (cacheTimed s t0 chunks d).2)
    ∧ (s.lastMod < t0 → s.lastMod < (cacheTimed s t0 chunks d).1.lastMod)
    ∧ (cacheTimed s t0 chunks d).1 = cache s t0 chunks := by
  refine ⟨rfl, rfl, fun _ => rfl, fun hd => ?_, fun h => h, rfl⟩
  simp only [cacheTimed]
  omega

/-- Witness for C10: refilling with the same byte `[1]` at time 4, the
read taking 2 units: the stamp is 4 (the start), below the finish time,
and it advanced past the old stamp 0. -/
theorem C10_lastmod_at_fill_start_witness :
    (cacheTimed ⟨[1], 0⟩ 4 [[1]] 2).1.lastMod = 4
    ∧ (cacheTimed ⟨[1], 0⟩ 4 [[1]] 2).1.lastMod < (cacheTimed ⟨[1], 0⟩ 4 [[1]] 2).2
    ∧ (0 : Nat) < (cacheTimed ⟨[1], 0⟩ 4 [[1]] 2).1.lastMod :=
  ⟨(C10_lastmod_at_fill_start ⟨[1], 0⟩ 4 [[1]] 2).2.2.1 (by decide),
   (C10_lastmod_at_fill_start ⟨[1], 0⟩ 4 [[1]] 2).2.2.2.1 (by decide),
   (C10_lastmod_at_fill_start ⟨[1], 0⟩ 4 [[1]] 2).2.2.2.2.1 (by decide)⟩

end Abserve
